import Mathlib

/-!
Request-execution core of the OSS client (`oss/conn.go`).

A shallow embedding of `oss/conn.go` and the properties of it that the
specification states.

Conventions of the embedding.

* Go `string` and `[]byte` values are Lean `String`s (their UTF-8 contents).
* Go `int` / `int64` values are `Int`; `uint64` values are `Nat` with an explicit
  `% 2 ^ 64` where wrap-around matters.
* A Go `error` is `Option Error`, `none` being `nil`; a possibly-nil pointer is an
  `Option`.
* Functions of the Go standard library whose result depends on the library version
  (`net.SplitHostPort`, `net.ParseIP`, `xml.Unmarshal`, `md5`/`base64`,
  `textproto.CanonicalMIMEHeaderKey`) are parameters of the definitions that call
  them. `url.QueryEscape` and `strconv.ParseUint` are embedded as definitions.
* The clock (`time.Now()`) is an explicit argument.
-/

namespace oss

/-! ## Strings -/

/-- Go `strings.HasPrefix(s, p)`. -/
def hasPrefix (s p : String) : Bool := p.data.isPrefixOf s.data

/-- Go slice expression `s[n:]` for an `n` that ends an ASCII run. -/
def sliceFrom (s : String) (n : Nat) : String := ⟨s.data.drop n⟩

/-- UTF-8 encoding of one character, as the bytes a Go string holds. -/
def utf8Bytes (c : Char) : List Nat :=
  let n := c.toNat
  if n < 0x80 then [n]
  else if n < 0x800 then [0xC0 + n / 64, 0x80 + n % 64]
  else if n < 0x10000 then [0xE0 + n / 4096, 0x80 + (n / 64) % 64, 0x80 + n % 64]
  else [0xF0 + n / 262144, 0x80 + (n / 4096) % 64, 0x80 + (n / 64) % 64, 0x80 + n % 64]

/-- Go `net/url.shouldEscape(c, encodeQueryComponent)`: only the unreserved bytes
(letters, digits, `-`, `_`, `.`, `~`) are left alone. -/
def shouldEscape (c : Nat) : Bool :=
  if (97 ≤ c ∧ c ≤ 122) ∨ (65 ≤ c ∧ c ≤ 90) ∨ (48 ≤ c ∧ c ≤ 57) then false
  else if c = 45 ∨ c = 95 ∨ c = 46 ∨ c = 126 then false
  else true

/-- Go `net/url.upperhex`. -/
def upperhex : List Char := "0123456789ABCDEF".data

/-- One byte of `net/url.escape(s, encodeQueryComponent)`: a space becomes `+`, any
other byte that must be escaped becomes `%XX`, the rest is copied. -/
def escapeByte (c : Nat) : List Char :=
  if c = 32 then ['+']
  else if shouldEscape c then ['%', upperhex.getD (c / 16) '0', upperhex.getD (c % 16) '0']
  else [Char.ofNat c]

/-- Go `url.QueryEscape`. -/
def QueryEscape (s : String) : String :=
  ⟨((s.data.map utf8Bytes).flatten.map escapeByte).flatten⟩

/-! ## `urlMaker` -/

def urlTypeCname : Int := 1
def urlTypeIP : Int := 2
def urlTypeAliyun : Int := 3

/-- Go `url.URL`, the fields the code sets. -/
structure URL where
  Scheme : String := ""
  Opaque : String := ""
  Host : String := ""
  Path : String := ""
  RawQuery : String := ""
  deriving DecidableEq, Repr

structure urlMaker where
  Scheme : String := ""
  NetLoc : String := ""
  /-- Field `Type` of the source (a Lean keyword, hence renamed). -/
  urlType : Int := 0
  IsProxy : Bool := false
  deriving DecidableEq, Repr

/-- Method `urlMaker.Init`. `splitHostPort` is `net.SplitHostPort` (`none` when it
returns an error, else host and port) and `parseIP` is `net.ParseIP(host) != nil`. -/
def urlMaker.Init (splitHostPort : String → Option (String × String))
    (parseIP : String → Bool) (um : urlMaker)
    (endpoint : String) (isCname : Bool) (isProxy : Bool) : urlMaker :=
  let um : urlMaker :=
    if hasPrefix endpoint "http://" then
      { um with Scheme := "http", NetLoc := sliceFrom endpoint "http://".length }
    else if hasPrefix endpoint "https://" then
      { um with Scheme := "https", NetLoc := sliceFrom endpoint "https://".length }
    else
      { um with Scheme := "http", NetLoc := endpoint }
  let host : String :=
    match splitHostPort um.NetLoc with
    | some (h, _) => h
    | none => um.NetLoc
  let um : urlMaker :=
    if parseIP host then { um with urlType := urlTypeIP }
    else if isCname then { um with urlType := urlTypeCname }
    else { um with urlType := urlTypeAliyun }
  { um with IsProxy := isProxy }

/-- Method `urlMaker.getURL`. -/
def urlMaker.getURL (um : urlMaker) (bucket object params : String) : URL :=
  let object := if !um.IsProxy then QueryEscape object else object
  let hp : String × String :=
    if um.urlType = urlTypeCname then
      (um.NetLoc, "/" ++ object)
    else if um.urlType = urlTypeIP then
      if bucket = "" then (um.NetLoc, "/")
      else (um.NetLoc, "/" ++ bucket ++ "/" ++ object)
    else
      if bucket = "" then (um.NetLoc, "/")
      else (bucket ++ "." ++ um.NetLoc, "/" ++ object)
  { Scheme := um.Scheme, Host := hp.1, Path := hp.2, RawQuery := params }

/-- Method `urlMaker.getResource`. -/
def urlMaker.getResource (_um : urlMaker) (bucketName objectName subResource : String) :
    String :=
  let subResource := if subResource ≠ "" then "?" ++ subResource else subResource
  if bucketName = "" then "/" ++ bucketName ++ subResource
  else "/" ++ bucketName ++ "/" ++ objectName ++ subResource

/-! ## Headers, configuration, requests and responses -/

/-- Go `http.Header`: a map from canonical header names to value lists, kept as an
association list with at most one entry per name. -/
structure Header where
  entries : List (String × List String) := []
  deriving DecidableEq, Repr

/-- Go `Header.Set(key, value)`; `canon` is `textproto.CanonicalMIMEHeaderKey`. -/
def Header.Set (canon : String → String) (h : Header) (key value : String) : Header :=
  ⟨(canon key, [value]) :: h.entries.filter (fun p => p.1 != canon key)⟩

/-- Go `Header.Get(key)`: the first value stored under the canonical name, else `""`. -/
def Header.Get (canon : String → String) (h : Header) (key : String) : String :=
  match h.entries.lookup (canon key) with
  | some (v :: _) => v
  | _ => ""

/-- Modelled from the spec: the header-name constants, declared outside `conn.go`. -/
def HTTPHeaderDate : String := "Date"
/-- Modelled from the spec: the header-name constants, declared outside `conn.go`. -/
def HTTPHeaderHost : String := "Host"
/-- Modelled from the spec: the header-name constants, declared outside `conn.go`. -/
def HTTPHeaderUserAgent : String := "User-Agent"
/-- Modelled from the spec: the header-name constants, declared outside `conn.go`. -/
def HTTPHeaderOssSecurityToken : String := "X-Oss-Security-Token"
/-- Modelled from the spec: the header-name constants, declared outside `conn.go`. -/
def HTTPHeaderContentLength : String := "Content-Length"
/-- Modelled from the spec: the header-name constants, declared outside `conn.go`. -/
def HTTPHeaderContentMD5 : String := "Content-MD5"
/-- Modelled from the spec: the header-name constants, declared outside `conn.go`. -/
def HTTPHeaderOssCRC64 : String := "X-Oss-Hash-Crc64ecma"
/-- Modelled from the spec: the header-name constants, declared outside `conn.go`. -/
def HTTPHeaderOssRequestID : String := "X-Oss-Request-Id"

/-- Modelled from the spec: the timeouts of the configuration (`Config.HTTPTimeout`),
declared outside `conn.go`; durations in nanoseconds. -/
structure HTTPTimeout where
  ConnectTimeout : Int := 0
  ReadWriteTimeout : Int := 0
  HeaderTimeout : Int := 0
  LongTimeout : Int := 0
  deriving DecidableEq, Repr

/-- Modelled from the spec: the `Config` object (endpoint, proxy settings, timeouts and
feature toggles), declared outside `conn.go`; the fields `conn.go` reads. -/
structure Config where
  Endpoint : String := ""
  UserAgent : String := ""
  SecurityToken : String := ""
  IsUseProxy : Bool := false
  IsAuthProxy : Bool := false
  ProxyHost : String := ""
  ProxyUser : String := ""
  ProxyPassword : String := ""
  IsEnableMD5 : Bool := false
  MD5Threshold : Int := 0
  IsEnableCRC : Bool := false
  HTTPTimeout : HTTPTimeout := {}
  deriving DecidableEq, Repr

structure Conn where
  config : Config := {}
  url : urlMaker := {}
  deriving DecidableEq, Repr

/-- Modelled from the spec: the service error {status code, error code, message, request
identifier, raw response body}, declared outside `conn.go`. -/
structure ServiceError where
  Code : String := ""
  Message : String := ""
  RequestID : String := ""
  RawMessage : String := ""
  StatusCode : Int := 0
  deriving DecidableEq, Repr

/-- A Go `error` value. -/
inductive Error where
  | EOF
  | text (msg : String)
  | service (e : ServiceError)
  deriving DecidableEq, Repr

/-- Modelled from the spec: the streaming 64-bit checksum accumulator (`hash.Hash64`
built by `NewCRC`, declared outside `conn.go`), seen through its current `Sum64`. -/
structure Hash64 where
  Sum64 : Nat := 0
  deriving DecidableEq, Repr

/-- Modelled from the spec: `NewCRC(table, init)`, an accumulator seeded with `init`. -/
def NewCRC (init : Nat) : Hash64 := { Sum64 := init }

/-- An `io.Reader` handed in as a request body, by dynamic type; `data` is the unread
content. -/
inductive Reader where
  | bytesBuffer (data : String)
  | bytesReader (data : String)
  | stringsReader (data : String)
  | osFile (name : String) (size : Int) (data : String)
  | other (data : String) (closer : Bool)
  | tee (r : Reader) (crc : Hash64)
  | nopCloser (r : Reader)
  deriving DecidableEq, Repr

/-- The bytes that reading the reader to its end yields. -/
def Reader.content : Reader → String
  | .bytesBuffer d => d
  | .bytesReader d => d
  | .stringsReader d => d
  | .osFile _ _ d => d
  | .other d _ => d
  | .tee r _ => r.content
  | .nopCloser r => r.content

/-- Whether the dynamic type of the reader is an `io.ReadCloser`. -/
def Reader.isReadCloser : Reader → Bool
  | .osFile _ _ _ => true
  | .other _ c => c
  | .nopCloser _ => true
  | _ => false

/-- Go `http.Request`, the fields the code sets. -/
structure Request where
  Method : String := ""
  URL : URL := {}
  Header : Header := {}
  Host : String := ""
  ContentLength : Int := 0
  Body : Option Reader := none
  deriving DecidableEq, Repr

/-- A response body stream: what `ioutil.ReadAll` returns on it. -/
structure Body where
  data : String := ""
  readErr : Option Error := none
  deriving DecidableEq, Repr

/-- Go `http.Response`, the fields the code reads. -/
structure HTTPResponse where
  StatusCode : Int := 0
  Status : String := ""
  Header : Header := {}
  Body : Body := {}
  deriving DecidableEq, Repr

/-- Modelled from the spec: the `Response` {status code, header mapping, body stream,
client-computed checksum, server-advertised checksum}, declared outside `conn.go`. -/
structure Response where
  StatusCode : Int := 0
  Headers : Header := {}
  Body : Body := {}
  ClientCRC : Nat := 0
  ServerCRC : Nat := 0
  deriving DecidableEq, Repr

/-! ## `strconv.ParseUint(s, 10, 64)` -/

/-- Largest `uint64`. -/
def maxUint64 : Nat := 2 ^ 64 - 1

/-- The digit loop of `strconv.ParseUint` for base 10 and bit size 64; `n` is the
accumulator. A syntax error returns 0 and a range error returns `maxUint64`. -/
def parseUintLoop : List Char → Nat → Nat × Option Error
  | [], n => (n, none)
  | c :: cs, n =>
    if 48 ≤ c.toNat ∧ c.toNat ≤ 57 then
      let d := c.toNat - 48
      if n ≥ maxUint64 / 10 + 1 then (maxUint64, some (Error.text "value out of range"))
      else
        let n := (n * 10) % 2 ^ 64
        let n1 := (n + d) % 2 ^ 64
        if n1 < n ∨ n1 > maxUint64 then (maxUint64, some (Error.text "value out of range"))
        else parseUintLoop cs n1
    else (0, some (Error.text "invalid syntax"))

/-- Go `strconv.ParseUint(s, 10, 64)`. -/
def ParseUint (s : String) : Nat × Option Error :=
  if s = "" then (0, some (Error.text "invalid syntax"))
  else parseUintLoop s.data 0

/-! ## `handleBody` and the assembly of the request -/

/-- Function `tryGetFileSize`: the size `Stat` reports. -/
def tryGetFileSize : Reader → Int
  | .osFile _ size _ => size
  | _ => 0

/-- Method `Conn.handleBody`. `md5b64` is base64 of the MD5 sum and `tmp` is the name of
the file `ioutil.TempFile` creates (`none` when it fails). Returns the request, the
temporary file and the checksum accumulator. -/
def Conn.handleBody (canon : String → String) (md5b64 : String → String)
    (tmp : Option String) (conn : Conn) (req : Request) (body : Option Reader)
    (initCRC : Nat) : Request × Option Reader × Option Hash64 :=
  let reader := body
  -- length
  let req : Request :=
    match body with
    | some (.bytesBuffer d) => { req with ContentLength := d.utf8ByteSize }
    | some (.bytesReader d) => { req with ContentLength := d.utf8ByteSize }
    | some (.stringsReader d) => { req with ContentLength := d.utf8ByteSize }
    | some (.osFile n sz d) => { req with ContentLength := tryGetFileSize (.osFile n sz d) }
    | _ => req
  let req : Request :=
    { req with Header := req.Header.Set canon HTTPHeaderContentLength (toString req.ContentLength) }
  -- md5
  let (req, file, reader) : Request × Option Reader × Option Reader :=
    match body with
    | some b =>
      if conn.config.IsEnableMD5 ∧ req.Header.Get canon HTTPHeaderContentMD5 = "" then
        if req.ContentLength = 0 ∨ req.ContentLength > conn.config.MD5Threshold then
          -- huge body, use temporary file
          match tmp with
          | some name =>
            let f := Reader.osFile name b.content.utf8ByteSize b.content
            ({ req with Header := req.Header.Set canon HTTPHeaderContentMD5 (md5b64 b.content) },
              some f, some f)
          | none => (req, none, reader)
        else
          -- small body, use memory
          let buf := b.content
          ({ req with Header := req.Header.Set canon HTTPHeaderContentMD5 (md5b64 buf) },
            none, some (Reader.bytesReader buf))
      else (req, none, reader)
    | none => (req, none, reader)
  let (reader, crc) : Option Reader × Option Hash64 :=
    match reader with
    | some r =>
      if conn.config.IsEnableCRC then (some (Reader.tee r (NewCRC initCRC)), some (NewCRC initCRC))
      else (some r, none)
    | none => (none, none)
  let rc : Option Reader :=
    match reader with
    | some r => if r.isReadCloser then some r else some (Reader.nopCloser r)
    | none => none
  ({ req with Body := rc }, file, crc)

/-- Go `strings.ToUpper` on an ASCII method name. -/
def toUpper (s : String) : String := ⟨s.data.map Char.toUpper⟩

/-- The state of `Conn.doRequest` at its call of `conn.signHeader`: the request and the
canonical resource handed to the signer, the temporary file to remove on return and the
checksum accumulator. -/
structure Signing where
  req : Request := {}
  canonicalizedResource : String := ""
  fd : Option Reader := none
  crc : Option Hash64 := none
  deriving DecidableEq, Repr

/-- Method `Conn.doRequest` from its first statement up to the call of
`conn.signHeader`. `headers` lists the caller's map in the order the `range` loop
visits it and `date` is the formatted `time.Now()`. -/
def Conn.doRequest (canon : String → String) (md5b64 : String → String)
    (tmp : Option String) (date : String) (conn : Conn) (method : String) (uri : URL)
    (canonicalizedResource : String)
    (headers : List (String × String)) (data : Option Reader) (initCRC : Nat) : Signing :=
  let method := toUpper method
  let uri : URL := if !conn.config.IsUseProxy then { uri with Opaque := uri.Path } else uri
  let req : Request := { Method := method, URL := uri, Header := {}, Host := uri.Host }
  let r := conn.handleBody canon md5b64 tmp req data initCRC
  let req := r.1
  let h := req.Header.Set canon HTTPHeaderDate date
  let h := h.Set canon HTTPHeaderHost conn.config.Endpoint
  let h := h.Set canon HTTPHeaderUserAgent conn.config.UserAgent
  let h := if conn.config.SecurityToken ≠ "" then
      h.Set canon HTTPHeaderOssSecurityToken conn.config.SecurityToken
    else h
  let h := headers.foldl (fun h kv => h.Set canon kv.1 kv.2) h
  { req := { req with Header := h }, canonicalizedResource := canonicalizedResource,
    fd := r.2.1, crc := r.2.2 }

/-- Method `Conn.Do`, up to the same point. -/
def Conn.Do (canon : String → String) (md5b64 : String → String)
    (tmp : Option String) (date : String) (conn : Conn)
    (method bucketName objectName urlParams subResource : String)
    (headers : List (String × String)) (data : Option Reader) (initCRC : Nat) : Signing :=
  let uri := conn.url.getURL bucketName objectName urlParams
  let resource := conn.url.getResource bucketName objectName subResource
  conn.doRequest canon md5b64 tmp date method uri resource headers data initCRC

/-! ## `handleResponse` -/

/-- Function `readResponseBody`. -/
def readResponseBody (resp : HTTPResponse) : String × Option Error :=
  let out := resp.Body.data
  let err := resp.Body.readErr
  let err := if err = some Error.EOF then none else err
  (out, err)

/-- Function `serviceErrFromXML`; `xmlUnmarshal body v` is `xml.Unmarshal(body, &v)`,
returning the updated target and the error. -/
def serviceErrFromXML (xmlUnmarshal : String → ServiceError → ServiceError × Option Error)
    (body : String) (statusCode : Int) (requestID : String) : ServiceError × Option Error :=
  let storageErr : ServiceError := {}
  match xmlUnmarshal body storageErr with
  | (storageErr, some err) => (storageErr, some err)
  | (storageErr, none) =>
    ({ storageErr with StatusCode := statusCode, RequestID := requestID, RawMessage := body },
      none)

/-- Method `Conn.handleResponse`. -/
def Conn.handleResponse (canon : String → String)
    (xmlUnmarshal : String → ServiceError → ServiceError × Option Error)
    (conn : Conn) (resp : HTTPResponse) (crc : Option Hash64) :
    Option Response × Option Error :=
  let statusCode := resp.StatusCode
  if statusCode ≥ 400 ∧ statusCode ≤ 505 then
    -- 4xx and 5xx indicate that the operation has error occurred
    match readResponseBody resp with
    | (_, some err) => (none, some err)
    | (respBody, none) =>
      let err : Option Error := none
      let err : Option Error :=
        if respBody.utf8ByteSize = 0 then
          some (Error.text
            ("oss: service returned without a response body (" ++ resp.Status ++ ")"))
        else
          let (srvErr, errIn) := serviceErrFromXML xmlUnmarshal respBody resp.StatusCode
            (resp.Header.Get canon HTTPHeaderOssRequestID)
          let _err : Option Error := if err ≠ none then errIn else err
          some (Error.service srvErr)
      (some { StatusCode := resp.StatusCode, Headers := resp.Header,
              Body := { data := respBody, readErr := none } }, err)
  else if statusCode ≥ 300 ∧ statusCode ≤ 307 then
    let err := Error.text
      ("oss: service returned " ++ toString resp.StatusCode ++ "," ++ resp.Status)
    (some { StatusCode := resp.StatusCode, Headers := resp.Header, Body := resp.Body },
      some err)
  else
    let cliCRC : Nat :=
      match crc with
      | some c => if conn.config.IsEnableCRC then c.Sum64 else 0
      | none => 0
    let srvCRC : Nat := (ParseUint (resp.Header.Get canon HTTPHeaderOssCRC64)).1
    (some { StatusCode := resp.StatusCode, Headers := resp.Header, Body := resp.Body,
            ClientCRC := cliCRC, ServerCRC := srvCRC }, none)

/-! ## `timeoutConn` -/

/-- A call made on the underlying `net.Conn`. -/
inductive ConnCall where
  | SetReadDeadline (t : Int)
  | SetWriteDeadline (t : Int)
  | Read
  | Write
  deriving DecidableEq, Repr

/-- The underlying `net.Conn`: its two deadlines (`none` while unset) and the calls made
on it, oldest first. -/
structure NetConn where
  readDeadline : Option Int := none
  writeDeadline : Option Int := none
  calls : List ConnCall := []
  deriving DecidableEq, Repr

def NetConn.SetReadDeadline (c : NetConn) (t : Int) : NetConn :=
  { c with readDeadline := some t, calls := c.calls ++ [ConnCall.SetReadDeadline t] }

def NetConn.SetWriteDeadline (c : NetConn) (t : Int) : NetConn :=
  { c with writeDeadline := some t, calls := c.calls ++ [ConnCall.SetWriteDeadline t] }

def NetConn.Read (c : NetConn) : NetConn :=
  { c with calls := c.calls ++ [ConnCall.Read] }

def NetConn.Write (c : NetConn) : NetConn :=
  { c with calls := c.calls ++ [ConnCall.Write] }

structure timeoutConn where
  conn : NetConn := {}
  timeout : Int := 0
  longTimeout : Int := 0
  deriving DecidableEq, Repr

/-- Function `newTimeoutConn`; `now` is `time.Now()`. -/
def newTimeoutConn (now : Int) (conn : NetConn) (timeout longTimeout : Int) : timeoutConn :=
  let conn := conn.SetReadDeadline (now + longTimeout)
  { conn := conn, timeout := timeout, longTimeout := longTimeout }

def timeoutConn.SetReadDeadline (c : timeoutConn) (t : Int) : timeoutConn :=
  { c with conn := c.conn.SetReadDeadline t }

def timeoutConn.SetWriteDeadline (c : timeoutConn) (t : Int) : timeoutConn :=
  { c with conn := c.conn.SetWriteDeadline t }

/-- Method `timeoutConn.Read`; `now1` and `now2` are the two readings of `time.Now()`
and `res` is what the underlying read returns. -/
def timeoutConn.Read (c : timeoutConn) (now1 now2 : Int) (res : Int × Option Error) :
    timeoutConn × Int × Option Error :=
  let c := c.SetReadDeadline (now1 + c.timeout)
  let c := { c with conn := c.conn.Read }
  let c := c.SetReadDeadline (now2 + c.longTimeout)
  (c, res.1, res.2)

/-- Method `timeoutConn.Write`; `now1` and `now2` are the two readings of `time.Now()`
and `res` is what the underlying write returns. -/
def timeoutConn.Write (c : timeoutConn) (now1 now2 : Int) (res : Int × Option Error) :
    timeoutConn × Int × Option Error :=
  let c := c.SetWriteDeadline (now1 + c.timeout)
  let c := { c with conn := c.conn.Write }
  let c := c.SetReadDeadline (now2 + c.longTimeout)
  (c, res.1, res.2)

/-! ## Reference instances of the library parameters -/

/-- Go `textproto.validHeaderFieldByte`: the token characters of RFC 7230. -/
def validHeaderFieldByte (c : Char) : Bool :=
  c.isAlphanum || "!#$%&*+-.^_|~".data.contains c || c = Char.ofNat 39 || c = Char.ofNat 96

/-- The letter-case pass of `textproto.canonicalMIMEHeaderKey`: upper case at the start
and after each dash, lower case elsewhere. -/
def canonicalCase : Bool → List Char → List Char
  | _, [] => []
  | upper, c :: cs =>
    let c := if upper then c.toUpper else c.toLower
    c :: canonicalCase (c = '-') cs

/-- Go `textproto.CanonicalMIMEHeaderKey`: a name with a byte that is not a token
character is returned as it is. -/
def CanonicalMIMEHeaderKey (s : String) : String :=
  if s.data.all validHeaderFieldByte then ⟨canonicalCase true s.data⟩ else s

/-- Strip `p` from the front of `l`, if it is there. -/
def stripFront : List Char → List Char → Option (List Char)
  | [], l => some l
  | _ :: _, [] => none
  | p :: ps, c :: cs => if p = c then stripFront ps cs else none

/-- Character data up to the next markup or entity, and the rest. -/
def takeText (l : List Char) : List Char × List Char :=
  l.span (fun c => c != '<' && c != '&')

/-- Go `xml.Unmarshal` into a `ServiceError` on two shapes of body: a body without any
markup has no start element, so decoding ends with `io.EOF` and the target as it was;
a body `<Error><Code>c</Code><Message>m</Message></Error>` with plain text `c` and `m`
fills the two fields. Any other body is outside this instance and reported as an
error with the target as it was. -/
def xmlUnmarshalSimple (body : String) (v : ServiceError) : ServiceError × Option Error :=
  if body.data.all (fun c => c != '<') then (v, some Error.EOF)
  else
    match stripFront "<Error><Code>".data body.data with
    | none => (v, some (Error.text "unsupported document"))
    | some r1 =>
      let (code, r2) := takeText r1
      match stripFront "</Code><Message>".data r2 with
      | none => (v, some (Error.text "unsupported document"))
      | some r3 =>
        let (msg, r4) := takeText r3
        if r4 = "</Message></Error>".data then
          ({ v with Code := ⟨code⟩, Message := ⟨msg⟩ }, none)
        else (v, some (Error.text "unsupported document"))

/-! ## The addressing mode as the specification words it -/

/-- The endpoint with a leading `http://` or `https://` stripped. -/
def specStripScheme (endpoint : String) : String :=
  match endpoint.data with
  | 'h' :: 't' :: 't' :: 'p' :: ':' :: '/' :: '/' :: rest => ⟨rest⟩
  | 'h' :: 't' :: 't' :: 'p' :: 's' :: ':' :: '/' :: '/' :: rest => ⟨rest⟩
  | _ => endpoint

/-- The host of the endpoint: scheme stripped and a port discarded. -/
def specHost (splitHostPort : String → Option (String × String)) (endpoint : String) :
    String :=
  match splitHostPort (specStripScheme endpoint) with
  | some hp => hp.1
  | none => specStripScheme endpoint

/-- The addressing mode in the priority order of the specification: literal IP, then
CNAME hint, then virtual-hosted. -/
def specAddressingMode (splitHostPort : String → Option (String × String))
    (parseIP : String → Bool) (endpoint : String) (isCname : Bool) : Int :=
  if parseIP (specHost splitHostPort endpoint) = true then urlTypeIP
  else if isCname = true then urlTypeCname
  else urlTypeAliyun

/-! ## The default headers as the specification words them -/

/-- The length sent as `Content-Length`: the length of a buffer or reader of known type,
the size of a file, and 0 when the body is absent or of another type. -/
def specContentLength : Option Reader → Int
  | some (.bytesBuffer d) => d.utf8ByteSize
  | some (.bytesReader d) => d.utf8ByteSize
  | some (.stringsReader d) => d.utf8ByteSize
  | some (.osFile _ size _) => size
  | _ => 0

/-- The content-digest header the core sets itself: the digest of the body when there
is a body, the digest toggle is set and, for a body of unknown length or one above the
threshold, the temporary file could be created; no header otherwise (read as `""`). -/
def specContentMD5 (md5b64 : String → String) (tmp : Option String) (conn : Conn)
    (data : Option Reader) : String :=
  match data with
  | none => ""
  | some b =>
    if conn.config.IsEnableMD5 = true then
      if specContentLength data = 0 ∨ specContentLength data > conn.config.MD5Threshold then
        (if tmp.isSome = true then md5b64 b.content else "")
      else md5b64 b.content
    else ""

/-! ## Properties of the URL and canonical-resource builder -/

theorem hasPrefix_http (endpoint : String) :
    hasPrefix endpoint "http://" = true ↔
      ∃ rest, endpoint.data = 'h' :: 't' :: 't' :: 'p' :: ':' :: '/' :: '/' :: rest := by
  unfold hasPrefix
  show ("http://".data.isPrefixOf endpoint.data = true) ↔ _
  rw [List.isPrefixOf_iff_prefix]
  constructor
  · rintro ⟨t, ht⟩
    exact ⟨t, ht.symm⟩
  · rintro ⟨t, ht⟩
    exact ⟨t, ht.symm⟩

theorem hasPrefix_https (endpoint : String) :
    hasPrefix endpoint "https://" = true ↔
      ∃ rest, endpoint.data = 'h' :: 't' :: 't' :: 'p' :: 's' :: ':' :: '/' :: '/' :: rest := by
  unfold hasPrefix
  show ("https://".data.isPrefixOf endpoint.data = true) ↔ _
  rw [List.isPrefixOf_iff_prefix]
  constructor
  · rintro ⟨t, ht⟩
    exact ⟨t, ht.symm⟩
  · rintro ⟨t, ht⟩
    exact ⟨t, ht.symm⟩

/-- Slicing the scheme off after `HasPrefix` is stripping the scheme. -/
theorem sliceFrom_eq_specStripScheme (endpoint : String) :
    (if hasPrefix endpoint "http://" then sliceFrom endpoint "http://".length
      else if hasPrefix endpoint "https://" then sliceFrom endpoint "https://".length
      else endpoint) = specStripScheme endpoint := by
  by_cases h1 : hasPrefix endpoint "http://" = true
  · rw [if_pos h1]
    obtain ⟨rest, hr⟩ := (hasPrefix_http endpoint).1 h1
    unfold specStripScheme sliceFrom
    rw [hr]
    rfl
  · rw [if_neg h1]
    by_cases h2 : hasPrefix endpoint "https://" = true
    · rw [if_pos h2]
      obtain ⟨rest, hr⟩ := (hasPrefix_https endpoint).1 h2
      unfold specStripScheme sliceFrom
      rw [hr]
      rfl
    · rw [if_neg h2]
      unfold specStripScheme
      split
      · rename_i rest hr
        exact absurd ((hasPrefix_http endpoint).2 ⟨rest, hr⟩) h1
      · rename_i rest hr
        exact absurd ((hasPrefix_https endpoint).2 ⟨rest, hr⟩) h2
      · rfl

/-- What `Init` stores: the network location is the endpoint without its scheme and
the type is decided on the host of that location. -/
theorem Init_fields (splitHostPort : String → Option (String × String))
    (parseIP : String → Bool) (um : urlMaker) (endpoint : String) (isCname isProxy : Bool) :
    (um.Init splitHostPort parseIP endpoint isCname isProxy).NetLoc =
        specStripScheme endpoint ∧
      (um.Init splitHostPort parseIP endpoint isCname isProxy).urlType =
        (if parseIP (match splitHostPort (specStripScheme endpoint) with
            | some (h, _) => h
            | none => specStripScheme endpoint) = true then urlTypeIP
          else if isCname = true then urlTypeCname else urlTypeAliyun) ∧
      (um.Init splitHostPort parseIP endpoint isCname isProxy).IsProxy = isProxy := by
  rw [← sliceFrom_eq_specStripScheme endpoint]
  unfold urlMaker.Init
  by_cases h1 : hasPrefix endpoint "http://" = true
  · simp only [h1, if_true]
    refine ⟨?_, ?_, ?_⟩ <;> first | trivial | (split_ifs <;> rfl)
  · by_cases h2 : hasPrefix endpoint "https://" = true
    · simp only [h1, h2, if_true]
      refine ⟨?_, ?_, ?_⟩ <;> first | trivial | (split_ifs <;> rfl)
    · simp only [h1, h2]
      refine ⟨?_, ?_, ?_⟩ <;> first | trivial | (split_ifs <;> rfl)

/-- C4: `urlMaker.Init` chooses the addressing mode in the priority order literal IP,
then CNAME hint, then virtual-hosted, the host being the endpoint with a leading
`http://` or `https://` stripped and a port discarded. -/
theorem C4_Init_addressing_mode (splitHostPort : String → Option (String × String))
    (parseIP : String → Bool) (um : urlMaker) (endpoint : String) (isCname isProxy : Bool) :
    (um.Init splitHostPort parseIP endpoint isCname isProxy).urlType =
        specAddressingMode splitHostPort parseIP endpoint isCname ∧
      (parseIP (specHost splitHostPort endpoint) = true →
        (um.Init splitHostPort parseIP endpoint isCname isProxy).urlType = urlTypeIP) ∧
      (parseIP (specHost splitHostPort endpoint) = false → isCname = true →
        (um.Init splitHostPort parseIP endpoint isCname isProxy).urlType = urlTypeCname) ∧
      (parseIP (specHost splitHostPort endpoint) = false → isCname = false →
        (um.Init splitHostPort parseIP endpoint isCname isProxy).urlType = urlTypeAliyun) := by
  have hT := (Init_fields splitHostPort parseIP um endpoint isCname isProxy).2.1
  have hH : (match splitHostPort (specStripScheme endpoint) with
      | some (h, _) => h
      | none => specStripScheme endpoint) = specHost splitHostPort endpoint := by
    unfold specHost
    cases splitHostPort (specStripScheme endpoint) <;> rfl
  rw [hH] at hT
  refine ⟨?_, ?_, ?_, ?_⟩
  · rw [hT]; rfl
  · intro h; rw [hT, if_pos h]
  · intro h hc; rw [hT, h, hc]; rfl
  · intro h hc; rw [hT, h, hc]; rfl

/-- C1 fails as stated: with an empty bucket the resource is `/`, not `//`. -/
theorem C1_counterexample :
    urlMaker.getResource {} "" "" "" = "/" ∧
      urlMaker.getResource {} "" "" "" ≠ "/" ++ "" ++ "/" ++ "" := by
  decide

/-- C1 as amended: for a non-empty bucket `getResource` returns `/bucket/object`,
followed by `?subResource` exactly when the sub-resource is non-empty; for an empty
bucket it returns `/` followed by `?subResource` when that is non-empty, without an
object segment. -/
theorem C1_getResource (um : urlMaker) (bucket object subResource : String) :
    (bucket ≠ "" →
        um.getResource bucket object subResource =
          "/" ++ bucket ++ "/" ++ object ++
            (if subResource = "" then "" else "?" ++ subResource)) ∧
      (bucket = "" →
        um.getResource bucket object subResource =
          "/" ++ (if subResource = "" then "" else "?" ++ subResource)) ∧
      um.getResource "" "" "" = "/" ∧
      um.getResource "b" "o" "" = "/b/o" ∧
      um.getResource "b" "o" "acl" = "/b/o?acl" := by
  refine ⟨?_, ?_, rfl, rfl, rfl⟩
  · intro hb
    unfold urlMaker.getResource
    by_cases hs : subResource = ""
    · subst hs
      simp [hb]
    · simp [hb, hs]
  · intro hb
    subst hb
    unfold urlMaker.getResource
    by_cases hs : subResource = ""
    · subst hs
      simp
    · simp [hs]

/-- C2: on the scenario of the specification the host is as stated, but the space of
the object name appears as `+` in the path, not as `%20`, and with proxy mode off that
path is what `Do` places on the request line (`uri.Opaque`). -/
theorem C2_getURL_space (splitHostPort : String → Option (String × String))
    (parseIP : String → Bool)
    (hs : splitHostPort "storage.example.com" = none)
    (hp : parseIP "storage.example.com" = false) :
    ((urlMaker.Init splitHostPort parseIP {} "storage.example.com" false false).getURL
        "mybucket" "a b.txt" "").Host = "mybucket.storage.example.com" ∧
      ((urlMaker.Init splitHostPort parseIP {} "storage.example.com" false false).getURL
        "mybucket" "a b.txt" "").Path = "/a+b.txt" ∧
      ((urlMaker.Init splitHostPort parseIP {} "storage.example.com" false false).getURL
        "mybucket" "a b.txt" "").Path ≠ "/a%20b.txt" ∧
      (Conn.Do CanonicalMIMEHeaderKey (fun b => b) none "date"
        { url := urlMaker.Init splitHostPort parseIP {} "storage.example.com" false false }
        "GET" "mybucket" "a b.txt" "" "" [] none 0).req.URL.Opaque = "/a+b.txt" := by
  obtain ⟨hN, hT, hP⟩ :=
    Init_fields splitHostPort parseIP {} "storage.example.com" false false
  have hS : specStripScheme "storage.example.com" = "storage.example.com" := by decide
  rw [hS] at hN hT
  rw [hs] at hT
  simp only [hp] at hT
  have hT2 : (urlMaker.Init splitHostPort parseIP {} "storage.example.com" false false).urlType
      = urlTypeAliyun := by
    rw [hT]; rfl
  have hQ : QueryEscape "a b.txt" = "a+b.txt" := by decide
  have hO : (Conn.Do CanonicalMIMEHeaderKey (fun b => b) none "date"
        { url := urlMaker.Init splitHostPort parseIP {} "storage.example.com" false false }
        "GET" "mybucket" "a b.txt" "" "" [] none 0).req.URL.Opaque =
      ((urlMaker.Init splitHostPort parseIP {} "storage.example.com" false false).getURL
        "mybucket" "a b.txt" "").Path := rfl
  rw [hO]
  unfold urlMaker.getURL
  rw [hN, hT2, hP, hQ]
  refine ⟨?_, ?_, ?_, ?_⟩ <;> dsimp only <;> decide

/-- C2, witness: the library functions can behave as assumed. -/
theorem C2_getURL_space_witness :
    ((urlMaker.Init (fun _ => none) (fun _ => false) {} "storage.example.com" false
        false).getURL "mybucket" "a b.txt" "").Host = "mybucket.storage.example.com" ∧
      ((urlMaker.Init (fun _ => none) (fun _ => false) {} "storage.example.com" false
        false).getURL "mybucket" "a b.txt" "").Path = "/a+b.txt" ∧
      ((urlMaker.Init (fun _ => none) (fun _ => false) {} "storage.example.com" false
        false).getURL "mybucket" "a b.txt" "").Path ≠ "/a%20b.txt" ∧
      (Conn.Do CanonicalMIMEHeaderKey (fun b => b) none "date"
        { url := urlMaker.Init (fun _ => none) (fun _ => false) {} "storage.example.com"
            false false }
        "GET" "mybucket" "a b.txt" "" "" [] none 0).req.URL.Opaque = "/a+b.txt" :=
  C2_getURL_space (fun _ => none) (fun _ => false) rfl rfl

/-- C3 fails as stated: in virtual-hosted mode with an empty bucket the path is `/` and
the object name is absent from it. -/
theorem C3_counterexample :
    (urlMaker.getURL
        { Scheme := "http", NetLoc := "storage.example.com", urlType := urlTypeAliyun }
        "" "x" "").Path = "/" ∧
      (urlMaker.getURL
        { Scheme := "http", NetLoc := "storage.example.com", urlType := urlTypeAliyun }
        "" "x" "").Path ≠ "/" ++ QueryEscape "x" := by
  decide

/-- C3 as amended: in virtual-hosted mode a non-empty bucket gives host
`bucket.NetLoc` and path `/` followed by the object (escaped unless in proxy mode); an
empty bucket gives host `NetLoc` and path `/`. -/
theorem C3_getURL_virtual_hosted (um : urlMaker) (bucket object params : String)
    (hT : um.urlType = urlTypeAliyun) :
    (bucket ≠ "" →
        (um.getURL bucket object params).Host = bucket ++ "." ++ um.NetLoc ∧
        (um.getURL bucket object params).Path =
          "/" ++ (if um.IsProxy = true then object else QueryEscape object)) ∧
      (bucket = "" →
        (um.getURL bucket object params).Host = um.NetLoc ∧
        (um.getURL bucket object params).Path = "/") := by
  have h1 : ¬ urlTypeAliyun = urlTypeCname := by decide
  have h2 : ¬ urlTypeAliyun = urlTypeIP := by decide
  unfold urlMaker.getURL
  rw [hT]
  constructor
  · intro hb
    cases hP : um.IsProxy <;> simp [h1, h2, hb]
  · intro hb
    simp [h1, h2, hb]

/-- C3, witness. -/
theorem C3_getURL_virtual_hosted_witness :
    ("mybucket" ≠ "" →
        (urlMaker.getURL { NetLoc := "storage.example.com", urlType := urlTypeAliyun }
          "mybucket" "a b.txt" "").Host = "mybucket" ++ "." ++ "storage.example.com" ∧
        (urlMaker.getURL { NetLoc := "storage.example.com", urlType := urlTypeAliyun }
          "mybucket" "a b.txt" "").Path =
          "/" ++ (if false = true then "a b.txt" else QueryEscape "a b.txt")) ∧
      ("mybucket" = "" →
        (urlMaker.getURL { NetLoc := "storage.example.com", urlType := urlTypeAliyun }
          "mybucket" "a b.txt" "").Host = "storage.example.com" ∧
        (urlMaker.getURL { NetLoc := "storage.example.com", urlType := urlTypeAliyun }
          "mybucket" "a b.txt" "").Path = "/") :=
  C3_getURL_virtual_hosted { NetLoc := "storage.example.com", urlType := urlTypeAliyun }
    "mybucket" "a b.txt" "" rfl

/-! ## Properties of the deadline-bounded connection -/

/-- C9 fails as stated: after `Write` the write deadline is still the short one set
before the write; the deadline moved to `now + longTimeout` is the read deadline. -/
theorem C9_counterexample :
    ((newTimeoutConn 0 {} 1 10).Write 5 6 (0, none)).1.conn.writeDeadline = some (5 + 1) ∧
      ((newTimeoutConn 0 {} 1 10).Write 5 6 (0, none)).1.conn.writeDeadline ≠ some (6 + 10) ∧
      ((newTimeoutConn 0 {} 1 10).Write 5 6 (0, none)).1.conn.calls =
        [ConnCall.SetReadDeadline 10, ConnCall.SetWriteDeadline 6, ConnCall.Write,
          ConnCall.SetReadDeadline 16] := by
  decide

/-- C9 as amended: `Read` sets the read deadline to `now + timeout` immediately before
the underlying read and to `now + longTimeout` immediately after it; `Write` sets the
write deadline to `now + timeout` immediately before the underlying write and sets the
read deadline to `now + longTimeout` immediately after it, leaving the write deadline
at the short value. -/
theorem C9_timeoutConn_deadlines (c : timeoutConn) (now1 now2 : Int)
    (res : Int × Option Error) :
    (c.Read now1 now2 res).1.conn.calls =
        c.conn.calls ++ [ConnCall.SetReadDeadline (now1 + c.timeout), ConnCall.Read,
          ConnCall.SetReadDeadline (now2 + c.longTimeout)] ∧
      (c.Read now1 now2 res).1.conn.readDeadline = some (now2 + c.longTimeout) ∧
      (c.Read now1 now2 res).1.conn.writeDeadline = c.conn.writeDeadline ∧
      (c.Write now1 now2 res).1.conn.calls =
        c.conn.calls ++ [ConnCall.SetWriteDeadline (now1 + c.timeout), ConnCall.Write,
          ConnCall.SetReadDeadline (now2 + c.longTimeout)] ∧
      (c.Write now1 now2 res).1.conn.writeDeadline = some (now1 + c.timeout) ∧
      (c.Write now1 now2 res).1.conn.readDeadline = some (now2 + c.longTimeout) ∧
      (c.Read now1 now2 res).2 = res ∧ (c.Write now1 now2 res).2 = res := by
  refine ⟨?_, rfl, rfl, ?_, rfl, rfl, rfl, rfl⟩
  · simp [timeoutConn.Read, timeoutConn.SetReadDeadline, NetConn.SetReadDeadline,
      NetConn.Read, List.append_assoc]
  · simp [timeoutConn.Write, timeoutConn.SetReadDeadline, timeoutConn.SetWriteDeadline,
      NetConn.SetReadDeadline, NetConn.SetWriteDeadline, NetConn.Write, List.append_assoc]

/-! ## Properties of the response classifier -/

/-- A string has no bytes exactly when it is empty. -/
theorem utf8ByteSize_eq_zero (s : String) : s.utf8ByteSize = 0 ↔ s = "" := by
  constructor
  · intro h
    rcases s with ⟨l⟩
    cases l with
    | nil => rfl
    | cons c cs =>
      exfalso
      have hc := Char.utf8Size_pos c
      simp only [String.utf8ByteSize, String.utf8ByteSize.go] at h
      omega
  · intro h
    subst h
    rfl

/-- C10: `handleResponse` returns a nil error exactly when the status code lies
outside both 300..307 and 400..505; every such status code, whether in 200..299 or
not, takes the success path. -/
theorem C10_handleResponse_nil_error (canon : String → String)
    (xmlUnmarshal : String → ServiceError → ServiceError × Option Error)
    (conn : Conn) (resp : HTTPResponse) (crc : Option Hash64) :
    ((conn.handleResponse canon xmlUnmarshal resp crc).2 = none ↔
        ¬ (300 ≤ resp.StatusCode ∧ resp.StatusCode ≤ 307) ∧
          ¬ (400 ≤ resp.StatusCode ∧ resp.StatusCode ≤ 505)) ∧
      (¬ (300 ≤ resp.StatusCode ∧ resp.StatusCode ≤ 307) ∧
          ¬ (400 ≤ resp.StatusCode ∧ resp.StatusCode ≤ 505) →
        conn.handleResponse canon xmlUnmarshal resp crc =
          (some { StatusCode := resp.StatusCode, Headers := resp.Header, Body := resp.Body,
                  ClientCRC := (match crc with
                    | some c => if conn.config.IsEnableCRC = true then c.Sum64 else 0
                    | none => 0),
                  ServerCRC := (ParseUint (resp.Header.Get canon HTTPHeaderOssCRC64)).1 },
            none)) := by
  constructor
  · unfold Conn.handleResponse
    by_cases h4 : resp.StatusCode ≥ 400 ∧ resp.StatusCode ≤ 505
    · simp only [h4, and_self, if_true]
      rcases hb : readResponseBody resp with ⟨body, _ | err⟩
      · by_cases he : body.utf8ByteSize = 0 <;> simp [he, h4]
      · simp [h4]
    · by_cases h3 : resp.StatusCode ≥ 300 ∧ resp.StatusCode ≤ 307
      · simp only [h4, h3, and_self, if_true, if_false]
        simp [h3]
      · simp only [h4, h3, if_false]
        simp only [ge_iff_le] at h3 h4
        simp [h3, h4]
  · rintro ⟨h3, h4⟩
    have h4b : ¬ (resp.StatusCode ≥ 400 ∧ resp.StatusCode ≤ 505) := h4
    have h3b : ¬ (resp.StatusCode ≥ 300 ∧ resp.StatusCode ≤ 307) := h3
    unfold Conn.handleResponse
    simp only [h4b, h3b, if_false]

/-! ### `ParseUint` reads back the decimal rendering of a `uint64` -/

theorem digitChar_toNat (d : Nat) (hd : d < 10) : (Nat.digitChar d).toNat = 48 + d := by
  interval_cases d <;> rfl

/-- One more digit on a parse that has succeeded so far. -/
theorem parseUintLoop_digit (d m : Nat) (hd : d < 10) (hm : m * 10 + d < 2 ^ 64) :
    parseUintLoop [Nat.digitChar d] m = (m * 10 + d, none) := by
  have h48 := digitChar_toNat d hd
  have hcut : ¬ m ≥ maxUint64 / 10 + 1 := by
    have : maxUint64 / 10 + 1 = 1844674407370955162 := by decide
    omega
  have h10 : m * 10 % 2 ^ 64 = m * 10 := Nat.mod_eq_of_lt (by omega)
  have hsub : 48 + d - 48 = d := by omega
  have hn1 : (m * 10 + d) % 2 ^ 64 = m * 10 + d := Nat.mod_eq_of_lt hm
  have hmax : maxUint64 = 2 ^ 64 - 1 := rfl
  simp only [parseUintLoop, h48, hsub]
  rw [if_pos (by omega), if_neg hcut, h10, hn1, if_neg (by omega)]

/-- A parse that succeeds on a front part goes on with the rest. -/
theorem parseUintLoop_append (xs ys : List Char) (m r : Nat)
    (h : parseUintLoop xs m = (r, none)) :
    parseUintLoop (xs ++ ys) m = parseUintLoop ys r := by
  induction xs generalizing m with
  | nil =>
    simp only [parseUintLoop, Prod.mk.injEq, and_true] at h
    subst h
    rfl
  | cons c cs ih =>
    simp only [List.cons_append, parseUintLoop] at h ⊢
    split_ifs at h ⊢ with h1 h2 h3
    · simp at h
    · simp at h
    · exact ih _ h
    · simp at h

theorem toDigitsCore_append (fuel n : Nat) (ds : List Char) :
    Nat.toDigitsCore 10 fuel n ds = Nat.toDigitsCore 10 fuel n [] ++ ds := by
  induction fuel generalizing n ds with
  | zero => simp [Nat.toDigitsCore]
  | succ f ih =>
    simp only [Nat.toDigitsCore]
    split_ifs with h
    · rfl
    · rw [ih (n / 10) (Nat.digitChar (n % 10) :: ds), ih (n / 10) [Nat.digitChar (n % 10)]]
      simp

theorem parseUintLoop_toDigitsCore (fuel n : Nat) (hf : n < fuel) (hn : n < 2 ^ 64) :
    parseUintLoop (Nat.toDigitsCore 10 fuel n []) 0 = (n, none) := by
  induction fuel generalizing n with
  | zero => omega
  | succ f ih =>
    simp only [Nat.toDigitsCore]
    split_ifs with h
    · have hlt : n < 10 := by omega
      have := parseUintLoop_digit (n % 10) 0 (by omega) (by omega)
      rw [this]
      simp only [zero_mul, zero_add, Prod.mk.injEq, and_true]
      omega
    · rw [toDigitsCore_append]
      have hq : n / 10 < f := by omega
      rw [parseUintLoop_append _ _ 0 (n / 10) (ih (n / 10) hq (by omega))]
      rw [parseUintLoop_digit (n % 10) (n / 10) (by omega) (by omega)]
      simp only [Prod.mk.injEq, and_true]
      omega

/-- `ParseUint` on the decimal rendering of a `uint64` returns that number. -/
theorem ParseUint_repr (v : Nat) (hv : v < 2 ^ 64) : ParseUint (Nat.repr v) = (v, none) := by
  have hd : (Nat.repr v).data = Nat.toDigitsCore 10 (v + 1) v [] := rfl
  have hne : Nat.repr v ≠ "" := by
    intro h
    have h2 : (Nat.repr v).data = [] := by rw [h]
    rw [hd] at h2
    simp only [Nat.toDigitsCore] at h2
    split_ifs at h2
    rw [toDigitsCore_append] at h2
    simp at h2
  unfold ParseUint
  rw [if_neg hne, hd]
  exact parseUintLoop_toDigitsCore (v + 1) v (by omega) hv

/-! ### Error and success responses -/

/-- C5 fails as stated: a 404 whose non-empty body is not an error document yields a
`ServiceError` with status code 0, no request identifier and no raw message. -/
theorem C5_counterexample :
    (Conn.handleResponse CanonicalMIMEHeaderKey xmlUnmarshalSimple {}
        { StatusCode := 404, Status := "404 Not Found",
          Header := ⟨[("X-Oss-Request-Id", ["REQ1"])]⟩, Body := { data := "oops" } }
        none).2 = some (Error.service
          { Code := "", Message := "", RequestID := "", RawMessage := "", StatusCode := 0 }) ∧
      ∀ code msg : String,
        (Conn.handleResponse CanonicalMIMEHeaderKey xmlUnmarshalSimple {}
          { StatusCode := 404, Status := "404 Not Found",
            Header := ⟨[("X-Oss-Request-Id", ["REQ1"])]⟩, Body := { data := "oops" } }
          none).2 ≠ some (Error.service
            { Code := code, Message := msg, RequestID := "REQ1", RawMessage := "oops",
              StatusCode := 404 }) := by
  have h : (Conn.handleResponse CanonicalMIMEHeaderKey xmlUnmarshalSimple {}
        { StatusCode := 404, Status := "404 Not Found",
          Header := ⟨[("X-Oss-Request-Id", ["REQ1"])]⟩, Body := { data := "oops" } }
        none).2 = some (Error.service
          { Code := "", Message := "", RequestID := "", RawMessage := "", StatusCode := 0 }) := by
    decide
  refine ⟨h, ?_⟩
  intro code msg
  rw [h]
  simp

/-- C5 as amended: for a status code in 400..505 whose body is read successfully, is
non-empty and parses as the error document, `handleResponse` returns a `ServiceError`
with the response's status code, its request-identifier header, the body text as raw
message and the code and message of the parsed document, together with a `Response`
carrying the same status code and headers and a body that replays the bytes read. -/
theorem C5_handleResponse_service_error (canon : String → String)
    (xmlUnmarshal : String → ServiceError → ServiceError × Option Error)
    (conn : Conn) (resp : HTTPResponse) (crc : Option Hash64)
    (body : String) (doc : ServiceError)
    (hs : 400 ≤ resp.StatusCode ∧ resp.StatusCode ≤ 505)
    (hr : readResponseBody resp = (body, none))
    (hb : body ≠ "")
    (hx : xmlUnmarshal body {} = (doc, none)) :
    conn.handleResponse canon xmlUnmarshal resp crc =
      (some { StatusCode := resp.StatusCode, Headers := resp.Header,
              Body := { data := body, readErr := none } },
        some (Error.service
          { Code := doc.Code, Message := doc.Message,
            RequestID := resp.Header.Get canon HTTPHeaderOssRequestID,
            RawMessage := body, StatusCode := resp.StatusCode })) := by
  have hne : ¬ body.utf8ByteSize = 0 := fun h => hb ((utf8ByteSize_eq_zero body).1 h)
  have hs2 : resp.StatusCode ≥ 400 ∧ resp.StatusCode ≤ 505 := hs
  unfold Conn.handleResponse
  simp only [hs2, and_self, if_true, hr, hne, if_false, serviceErrFromXML, hx]

/-- C5, witness: a 404 with a structured error body. -/
theorem C5_handleResponse_service_error_witness :
    Conn.handleResponse CanonicalMIMEHeaderKey xmlUnmarshalSimple {}
        { StatusCode := 404, Status := "404 Not Found",
          Header := ⟨[("X-Oss-Request-Id", ["REQ1"])]⟩,
          Body := { data := "<Error><Code>NoSuchKey</Code><Message>gone</Message></Error>" } }
        none =
      (some { StatusCode := 404, Headers := ⟨[("X-Oss-Request-Id", ["REQ1"])]⟩,
              Body := { data := "<Error><Code>NoSuchKey</Code><Message>gone</Message></Error>",
                        readErr := none } },
        some (Error.service
          { Code := "NoSuchKey", Message := "gone", RequestID := "REQ1",
            RawMessage := "<Error><Code>NoSuchKey</Code><Message>gone</Message></Error>",
            StatusCode := 404 })) :=
  C5_handleResponse_service_error CanonicalMIMEHeaderKey xmlUnmarshalSimple {}
    { StatusCode := 404, Status := "404 Not Found",
      Header := ⟨[("X-Oss-Request-Id", ["REQ1"])]⟩,
      Body := { data := "<Error><Code>NoSuchKey</Code><Message>gone</Message></Error>" } }
    none "<Error><Code>NoSuchKey</Code><Message>gone</Message></Error>"
    { Code := "NoSuchKey", Message := "gone" }
    (by decide) (by decide) (by decide) (by decide)

/-- C6: for a status code in 200..299 `handleResponse` returns a nil error and a
`Response` with the status code, headers and body of the response, whose `ServerCRC`
is what `ParseUint` reads in the server checksum header (the number `v` when the header
holds the decimal rendering of a `uint64` `v`) and whose `ClientCRC` is the `Sum64` of
the accumulator when checksums are enabled and an accumulator exists, and 0 otherwise. -/
theorem C6_handleResponse_success (canon : String → String)
    (xmlUnmarshal : String → ServiceError → ServiceError × Option Error)
    (conn : Conn) (resp : HTTPResponse) (crc : Option Hash64)
    (hs : 200 ≤ resp.StatusCode ∧ resp.StatusCode ≤ 299) :
    ∃ r : Response, conn.handleResponse canon xmlUnmarshal resp crc = (some r, none) ∧
      r.StatusCode = resp.StatusCode ∧ r.Headers = resp.Header ∧ r.Body = resp.Body ∧
      r.ServerCRC = (ParseUint (resp.Header.Get canon HTTPHeaderOssCRC64)).1 ∧
      (∀ v : Nat, v < 2 ^ 64 →
        resp.Header.Get canon HTTPHeaderOssCRC64 = Nat.repr v → r.ServerCRC = v) ∧
      (∀ c : Hash64, crc = some c → conn.config.IsEnableCRC = true →
        r.ClientCRC = c.Sum64) ∧
      (crc = none ∨ conn.config.IsEnableCRC = false → r.ClientCRC = 0) := by
  have h4 : ¬ (resp.StatusCode ≥ 400 ∧ resp.StatusCode ≤ 505) := by omega
  have h3 : ¬ (resp.StatusCode ≥ 300 ∧ resp.StatusCode ≤ 307) := by omega
  unfold Conn.handleResponse
  simp only [h4, h3, if_false]
  refine ⟨_, rfl, rfl, rfl, rfl, rfl, ?_, ?_, ?_⟩
  · intro v hv hh
    show (ParseUint (resp.Header.Get canon HTTPHeaderOssCRC64)).1 = v
    rw [hh, ParseUint_repr v hv]
  · intro c hc he
    subst hc
    simp [he]
  · intro h
    rcases h with h | h
    · subst h; rfl
    · cases crc <;> simp [h]

/-- C6, witness: a 206 response carrying the largest `uint64` as server checksum. -/
theorem C6_handleResponse_success_witness :
    ∃ r : Response,
      Conn.handleResponse CanonicalMIMEHeaderKey xmlUnmarshalSimple
          { config := { IsEnableCRC := true } }
          { StatusCode := 206, Status := "206 Partial Content",
            Header := ⟨[("X-Oss-Hash-Crc64ecma", ["18446744073709551615"])]⟩,
            Body := { data := "part" } }
          (some { Sum64 := 7 }) = (some r, none) ∧
        r.StatusCode = 206 ∧
        r.Headers = ⟨[("X-Oss-Hash-Crc64ecma", ["18446744073709551615"])]⟩ ∧
        r.Body = { data := "part" } ∧
        r.ServerCRC = (ParseUint "18446744073709551615").1 ∧
        (∀ v : Nat, v < 2 ^ 64 → "18446744073709551615" = Nat.repr v → r.ServerCRC = v) ∧
        (∀ c : Hash64, some ({ Sum64 := 7 } : Hash64) = some c → true = true →
          r.ClientCRC = c.Sum64) ∧
        (some ({ Sum64 := 7 } : Hash64) = none ∨ true = false → r.ClientCRC = 0) :=
  C6_handleResponse_success CanonicalMIMEHeaderKey xmlUnmarshalSimple
    { config := { IsEnableCRC := true } }
    { StatusCode := 206, Status := "206 Partial Content",
      Header := ⟨[("X-Oss-Hash-Crc64ecma", ["18446744073709551615"])]⟩,
      Body := { data := "part" } }
    (some { Sum64 := 7 }) (by decide)

/-! ## Properties of the request assembly -/

theorem lookup_filter_ne (es : List (String × List String)) (a ck : String) (h : a ≠ ck) :
    (es.filter (fun p => p.1 != ck)).lookup a = es.lookup a := by
  induction es with
  | nil => rfl
  | cons e es ih =>
    rcases e with ⟨k, vs⟩
    by_cases hk : k = ck
    · subst hk
      have hak : (a == k) = false := by simpa using h
      simp [List.filter_cons, List.lookup_cons, hak, ih]
    · have hk2 : (k != ck) = true := by simpa using hk
      simp only [List.filter_cons, hk2, if_true, List.lookup_cons, ih]

/-- Reading a header after one `Set`. -/
theorem Header.Get_Set (canon : String → String) (h : Header) (k v k2 : String) :
    (h.Set canon k v).Get canon k2 = if canon k2 = canon k then v else h.Get canon k2 := by
  unfold Header.Get Header.Set
  by_cases hk : canon k2 = canon k
  · simp [List.lookup_cons, hk]
  · have hb : (canon k2 == canon k) = false := by simpa using hk
    simp only [List.lookup_cons, hb, if_neg hk]
    rw [lookup_filter_ne _ _ _ hk]

/-- The caller's loop leaves alone the headers it does not name. -/
theorem foldl_Set_not_mem (canon : String → String) (hs : List (String × String))
    (h : Header) (k : String) (hk : canon k ∉ hs.map (fun kv => canon kv.1)) :
    (hs.foldl (fun h kv => h.Set canon kv.1 kv.2) h).Get canon k = h.Get canon k := by
  induction hs generalizing h with
  | nil => rfl
  | cons e es ih =>
    simp only [List.map_cons, List.mem_cons, not_or] at hk
    simp only [List.foldl_cons]
    rw [ih _ hk.2, Header.Get_Set, if_neg hk.1]

/-- After the caller's loop every header the caller names holds the caller's value. -/
theorem foldl_Set_mem (canon : String → String) (hs : List (String × String))
    (h : Header) (k v : String) (hm : (k, v) ∈ hs)
    (hnd : (hs.map (fun kv => canon kv.1)).Nodup) :
    (hs.foldl (fun h kv => h.Set canon kv.1 kv.2) h).Get canon k = v := by
  induction hs generalizing h with
  | nil => simp at hm
  | cons e es ih =>
    simp only [List.map_cons, List.nodup_cons] at hnd
    simp only [List.foldl_cons]
    rcases List.mem_cons.1 hm with he | he
    · subst he
      rw [foldl_Set_not_mem canon es _ k hnd.1, Header.Get_Set, if_pos rfl]
    · exact ih _ he hnd.2

/-- The header set `doRequest` hands to the signer is the default set with the caller's
loop run over it, and the default set does not depend on the caller's headers. -/
theorem doRequest_Header (canon : String → String) (md5b64 : String → String)
    (tmp : Option String) (date : String) (conn : Conn) (method : String) (uri : URL)
    (resource : String)
    (headers : List (String × String)) (data : Option Reader) (initCRC : Nat) :
    (conn.doRequest canon md5b64 tmp date method uri resource headers data
        initCRC).req.Header =
      headers.foldl (fun h kv => h.Set canon kv.1 kv.2)
        (conn.doRequest canon md5b64 tmp date method uri resource [] data
          initCRC).req.Header := by
  rfl

/-- Reading an empty header set. -/
theorem Header.Get_empty (canon : String → String) (k : String) :
    (({} : Header)).Get canon k = "" := rfl

/-- The headers `handleBody` leaves on a fresh request: the content length, and the
content digest when it computes one. -/
theorem handleBody_Header_Get (canon : String → String) (md5b64 : String → String)
    (tmp : Option String) (conn : Conn) (req : Request) (data : Option Reader)
    (initCRC : Nat) (hreq : req.Header = {}) (hcl : req.ContentLength = 0)
    (hne : canon HTTPHeaderContentMD5 ≠ canon HTTPHeaderContentLength) :
    (∀ k, canon k ≠ canon HTTPHeaderContentMD5 →
      (conn.handleBody canon md5b64 tmp req data initCRC).1.Header.Get canon k =
        if canon k = canon HTTPHeaderContentLength then toString (specContentLength data)
        else "") ∧
    (conn.handleBody canon md5b64 tmp req data initCRC).1.Header.Get canon
        HTTPHeaderContentMD5 = specContentMD5 md5b64 tmp conn data := by
  rcases req with ⟨m, u, hd, ho, cl, bo⟩
  simp only at hreq hcl
  subst hreq
  subst hcl
  constructor
  · intro k hk
    rcases data with _ | (d | d | d | ⟨n, sz, d⟩ | ⟨d, c⟩ | ⟨r, c⟩ | r) <;>
      cases hE : conn.config.IsEnableMD5 <;> cases tmp <;>
      simp [Conn.handleBody, Header.Get_Set, Header.Get_empty, specContentLength, hE, hne, hk,
        tryGetFileSize] <;>
      (try (split_ifs <;> simp_all [Header.Get_Set, Header.Get_empty]))
  · rcases data with _ | (d | d | d | ⟨n, sz, d⟩ | ⟨d, c⟩ | ⟨r, c⟩ | r) <;>
      cases hE : conn.config.IsEnableMD5 <;> cases tmp <;>
      simp [Conn.handleBody, Header.Get_Set, Header.Get_empty, specContentLength, hE, hne,
        tryGetFileSize, specContentMD5] <;>
      (try (split_ifs <;> simp_all [Header.Get_Set, Header.Get_empty, Reader.content]))

/-- The defaults `doRequest` sets when the caller passes no header, for header names
that are distinct after canonicalisation. -/
theorem doRequest_defaults (canon : String → String) (md5b64 : String → String)
    (tmp : Option String) (date : String) (conn : Conn) (method : String) (uri : URL)
    (resource : String) (data : Option Reader) (initCRC : Nat)
    (hdist : ([HTTPHeaderContentLength, HTTPHeaderContentMD5, HTTPHeaderDate,
      HTTPHeaderHost, HTTPHeaderUserAgent, HTTPHeaderOssSecurityToken].map canon).Nodup) :
    (conn.doRequest canon md5b64 tmp date method uri resource [] data
        initCRC).req.Header.Get canon HTTPHeaderDate = date ∧
      (conn.doRequest canon md5b64 tmp date method uri resource [] data
        initCRC).req.Header.Get canon HTTPHeaderHost = conn.config.Endpoint ∧
      (conn.doRequest canon md5b64 tmp date method uri resource [] data
        initCRC).req.Header.Get canon HTTPHeaderUserAgent = conn.config.UserAgent ∧
      (conn.doRequest canon md5b64 tmp date method uri resource [] data
        initCRC).req.Header.Get canon HTTPHeaderOssSecurityToken =
          conn.config.SecurityToken ∧
      (conn.doRequest canon md5b64 tmp date method uri resource [] data
        initCRC).req.Header.Get canon HTTPHeaderContentLength =
          toString (specContentLength data) ∧
      (conn.doRequest canon md5b64 tmp date method uri resource [] data
        initCRC).req.Header.Get canon HTTPHeaderContentMD5 =
          specContentMD5 md5b64 tmp conn data := by
  simp only [List.map_cons, List.map_nil, List.nodup_cons, List.mem_cons, List.mem_singleton,
    List.not_mem_nil, or_false, not_or, List.nodup_nil, and_true, not_false_eq_true] at hdist
  obtain ⟨⟨hLM, hLD, hLH, hLU, hLT⟩, ⟨hMD, hMH, hMU, hMT⟩, ⟨hDH, hDU, hDT⟩, ⟨hHU, hHT⟩,
    hUT⟩ := hdist
  obtain ⟨hK, hM⟩ := handleBody_Header_Get canon md5b64 tmp conn
    { Method := toUpper method,
      URL := if (!conn.config.IsUseProxy) = true then { uri with Opaque := uri.Path } else uri,
      Header := {},
      Host := (if (!conn.config.IsUseProxy) = true then { uri with Opaque := uri.Path }
        else uri).Host }
    data initCRC rfl rfl (Ne.symm hLM)
  have hKD := hK HTTPHeaderDate (Ne.symm hMD)
  have hKH := hK HTTPHeaderHost (Ne.symm hMH)
  have hKU := hK HTTPHeaderUserAgent (Ne.symm hMU)
  have hKT := hK HTTPHeaderOssSecurityToken (Ne.symm hMT)
  have hKL := hK HTTPHeaderContentLength hLM
  rw [if_neg (Ne.symm hLT)] at hKT
  rw [if_pos rfl] at hKL
  have hHD := Ne.symm hDH
  have hUD := Ne.symm hDU
  have hUH := Ne.symm hHU
  have hTD := Ne.symm hDT
  have hTH := Ne.symm hHT
  have hTU := Ne.symm hUT
  have hDL := Ne.symm hLD
  have hHL := Ne.symm hLH
  have hUL := Ne.symm hLU
  have hDM := Ne.symm hMD
  have hHM := Ne.symm hMH
  have hUM := Ne.symm hMU
  unfold Conn.doRequest
  by_cases ht : conn.config.SecurityToken = ""
  · simp only [ht, ne_eq, not_true_eq_false, if_false, List.foldl_nil, Header.Get_Set,
      if_true, if_neg hDH, if_neg hDU, if_neg hHU, if_neg hTD, if_neg hTH, if_neg hTU,
      if_neg hDL, if_neg hHL, if_neg hUL, if_neg hDM, if_neg hHM, if_neg hUM,
      if_neg hHD, if_neg hUD, if_neg hUH, if_neg hLD, if_neg hLH, if_neg hLU,
      if_neg hMD, if_neg hMH, if_neg hMU]
    exact ⟨trivial, trivial, trivial, hKT, hKL, hM⟩
  · simp only [ht, ne_eq, not_false_eq_true, if_true, List.foldl_nil, Header.Get_Set,
      if_neg hDH, if_neg hDU, if_neg hHU, if_neg hDT, if_neg hHT, if_neg hUT,
      if_neg hTD, if_neg hTH, if_neg hTU,
      if_neg hDL, if_neg hHL, if_neg hUL, if_neg hDM, if_neg hHM, if_neg hUM,
      if_neg hHD, if_neg hUD, if_neg hUH, if_neg hLD, if_neg hLH, if_neg hLU,
      if_neg hMD, if_neg hMH, if_neg hMU, if_neg hLT, if_neg hMT]
    exact ⟨trivial, trivial, trivial, trivial, hKL, hM⟩

/-- C7: in `doRequest` the caller's headers win on conflict: with keys distinct after
canonicalisation, every entry `(k, v)` of the caller's map is what the header set handed
to the signer holds under `k`, whichever default `k` names, and a header the caller does
not name keeps its default value: the date, the endpoint as host, the user agent, the
security token when one is configured, the content length and the content digest the
core computed. -/
theorem C7_caller_headers_win (canon : String → String) (md5b64 : String → String)
    (tmp : Option String) (date : String) (conn : Conn) (method : String) (uri : URL)
    (resource : String)
    (headers : List (String × String)) (data : Option Reader) (initCRC : Nat)
    (hnd : (headers.map (fun kv => canon kv.1)).Nodup) :
    (∀ k v : String, (k, v) ∈ headers →
        (conn.doRequest canon md5b64 tmp date method uri resource headers data
          initCRC).req.Header.Get canon k = v) ∧
      (∀ k : String, canon k ∉ headers.map (fun kv => canon kv.1) →
        (conn.doRequest canon md5b64 tmp date method uri resource headers data
          initCRC).req.Header.Get canon k =
        (conn.doRequest canon md5b64 tmp date method uri resource [] data
          initCRC).req.Header.Get canon k) ∧
      (([HTTPHeaderContentLength, HTTPHeaderContentMD5, HTTPHeaderDate, HTTPHeaderHost,
          HTTPHeaderUserAgent, HTTPHeaderOssSecurityToken].map canon).Nodup →
        (canon HTTPHeaderDate ∉ headers.map (fun kv => canon kv.1) →
          (conn.doRequest canon md5b64 tmp date method uri resource headers data
            initCRC).req.Header.Get canon HTTPHeaderDate = date) ∧
        (canon HTTPHeaderHost ∉ headers.map (fun kv => canon kv.1) →
          (conn.doRequest canon md5b64 tmp date method uri resource headers data
            initCRC).req.Header.Get canon HTTPHeaderHost = conn.config.Endpoint) ∧
        (canon HTTPHeaderUserAgent ∉ headers.map (fun kv => canon kv.1) →
          (conn.doRequest canon md5b64 tmp date method uri resource headers data
            initCRC).req.Header.Get canon HTTPHeaderUserAgent = conn.config.UserAgent) ∧
        (canon HTTPHeaderOssSecurityToken ∉ headers.map (fun kv => canon kv.1) →
          (conn.doRequest canon md5b64 tmp date method uri resource headers data
            initCRC).req.Header.Get canon HTTPHeaderOssSecurityToken =
              conn.config.SecurityToken) ∧
        (canon HTTPHeaderContentLength ∉ headers.map (fun kv => canon kv.1) →
          (conn.doRequest canon md5b64 tmp date method uri resource headers data
            initCRC).req.Header.Get canon HTTPHeaderContentLength =
              toString (specContentLength data)) ∧
        (canon HTTPHeaderContentMD5 ∉ headers.map (fun kv => canon kv.1) →
          (conn.doRequest canon md5b64 tmp date method uri resource headers data
            initCRC).req.Header.Get canon HTTPHeaderContentMD5 =
              specContentMD5 md5b64 tmp conn data)) := by
  have hkeep : ∀ k : String, canon k ∉ headers.map (fun kv => canon kv.1) →
      (conn.doRequest canon md5b64 tmp date method uri resource headers data
        initCRC).req.Header.Get canon k =
      (conn.doRequest canon md5b64 tmp date method uri resource [] data
        initCRC).req.Header.Get canon k := by
    intro k hk
    rw [doRequest_Header]
    exact foldl_Set_not_mem canon headers _ k hk
  refine ⟨?_, hkeep, ?_⟩
  · intro k v hm
    rw [doRequest_Header]
    exact foldl_Set_mem canon headers _ k v hm hnd
  · intro hdist
    obtain ⟨hD, hH, hU, hT, hL, hM⟩ :=
      doRequest_defaults canon md5b64 tmp date conn method uri resource data initCRC hdist
    refine ⟨?_, ?_, ?_, ?_, ?_, ?_⟩
    · intro hk; rw [hkeep _ hk, hD]
    · intro hk; rw [hkeep _ hk, hH]
    · intro hk; rw [hkeep _ hk, hU]
    · intro hk; rw [hkeep _ hk, hT]
    · intro hk; rw [hkeep _ hk, hL]
    · intro hk; rw [hkeep _ hk, hM]

/-- C7, witness: a caller overriding the date and the content digest of a three-byte
upload; host, user agent, security token and content length keep their defaults. -/
theorem C7_caller_headers_win_witness :
    (∀ k v : String, (k, v) ∈ [("date", "D1"), ("Content-MD5", "caller")] →
        (Conn.doRequest CanonicalMIMEHeaderKey (fun b => b) none "D0"
          { config := { Endpoint := "ep", UserAgent := "ua", SecurityToken := "tok",
                        IsEnableMD5 := true, MD5Threshold := 16 } } "put" {} "/b/o"
          [("date", "D1"), ("Content-MD5", "caller")]
          (some (Reader.stringsReader "abc")) 0).req.Header.Get CanonicalMIMEHeaderKey k
          = v) ∧
      (Conn.doRequest CanonicalMIMEHeaderKey (fun b => b) none "D0"
          { config := { Endpoint := "ep", UserAgent := "ua", SecurityToken := "tok",
                        IsEnableMD5 := true, MD5Threshold := 16 } } "put" {} "/b/o"
          [("date", "D1"), ("Content-MD5", "caller")]
          (some (Reader.stringsReader "abc")) 0).req.Header.Get CanonicalMIMEHeaderKey
          HTTPHeaderHost = "ep" ∧
      (Conn.doRequest CanonicalMIMEHeaderKey (fun b => b) none "D0"
          { config := { Endpoint := "ep", UserAgent := "ua", SecurityToken := "tok",
                        IsEnableMD5 := true, MD5Threshold := 16 } } "put" {} "/b/o"
          [("date", "D1"), ("Content-MD5", "caller")]
          (some (Reader.stringsReader "abc")) 0).req.Header.Get CanonicalMIMEHeaderKey
          HTTPHeaderUserAgent = "ua" ∧
      (Conn.doRequest CanonicalMIMEHeaderKey (fun b => b) none "D0"
          { config := { Endpoint := "ep", UserAgent := "ua", SecurityToken := "tok",
                        IsEnableMD5 := true, MD5Threshold := 16 } } "put" {} "/b/o"
          [("date", "D1"), ("Content-MD5", "caller")]
          (some (Reader.stringsReader "abc")) 0).req.Header.Get CanonicalMIMEHeaderKey
          HTTPHeaderOssSecurityToken = "tok" ∧
      (Conn.doRequest CanonicalMIMEHeaderKey (fun b => b) none "D0"
          { config := { Endpoint := "ep", UserAgent := "ua", SecurityToken := "tok",
                        IsEnableMD5 := true, MD5Threshold := 16 } } "put" {} "/b/o"
          [("date", "D1"), ("Content-MD5", "caller")]
          (some (Reader.stringsReader "abc")) 0).req.Header.Get CanonicalMIMEHeaderKey
          HTTPHeaderContentLength = toString (specContentLength
            (some (Reader.stringsReader "abc"))) :=
  ⟨(C7_caller_headers_win CanonicalMIMEHeaderKey (fun b => b) none "D0"
      { config := { Endpoint := "ep", UserAgent := "ua", SecurityToken := "tok",
                    IsEnableMD5 := true, MD5Threshold := 16 } } "put" {} "/b/o"
      [("date", "D1"), ("Content-MD5", "caller")] (some (Reader.stringsReader "abc")) 0
      (by decide)).1,
    ((C7_caller_headers_win CanonicalMIMEHeaderKey (fun b => b) none "D0"
      { config := { Endpoint := "ep", UserAgent := "ua", SecurityToken := "tok",
                    IsEnableMD5 := true, MD5Threshold := 16 } } "put" {} "/b/o"
      [("date", "D1"), ("Content-MD5", "caller")] (some (Reader.stringsReader "abc")) 0
      (by decide)).2.2 (by decide)).2.1 (by decide),
    ((C7_caller_headers_win CanonicalMIMEHeaderKey (fun b => b) none "D0"
      { config := { Endpoint := "ep", UserAgent := "ua", SecurityToken := "tok",
                    IsEnableMD5 := true, MD5Threshold := 16 } } "put" {} "/b/o"
      [("date", "D1"), ("Content-MD5", "caller")] (some (Reader.stringsReader "abc")) 0
      (by decide)).2.2 (by decide)).2.2.1 (by decide),
    ((C7_caller_headers_win CanonicalMIMEHeaderKey (fun b => b) none "D0"
      { config := { Endpoint := "ep", UserAgent := "ua", SecurityToken := "tok",
                    IsEnableMD5 := true, MD5Threshold := 16 } } "put" {} "/b/o"
      [("date", "D1"), ("Content-MD5", "caller")] (some (Reader.stringsReader "abc")) 0
      (by decide)).2.2 (by decide)).2.2.2.1 (by decide),
    ((C7_caller_headers_win CanonicalMIMEHeaderKey (fun b => b) none "D0"
      { config := { Endpoint := "ep", UserAgent := "ua", SecurityToken := "tok",
                    IsEnableMD5 := true, MD5Threshold := 16 } } "put" {} "/b/o"
      [("date", "D1"), ("Content-MD5", "caller")] (some (Reader.stringsReader "abc")) 0
      (by decide)).2.2 (by decide)).2.2.2.2.1 (by decide)⟩

/-- C8: the body handling of `doRequest` does not look at the caller's headers: the
body, the temporary file and the accumulator are those of a call without headers. With
the digest toggle set and a caller who supplies `Content-MD5`, a three-byte body is
still read into memory and digested, and a body of unknown length is still spooled to a
temporary file. -/
theorem C8_digest_despite_caller_header (md5b64 : String → String) (date : String) :
    (∀ (canon : String → String) (tmp : Option String) (conn : Conn) (method : String)
        (uri : URL) (resource : String) (headers : List (String × String))
        (data : Option Reader) (initCRC : Nat),
        (conn.doRequest canon md5b64 tmp date method uri resource headers data
            initCRC).req.Body =
          (conn.doRequest canon md5b64 tmp date method uri resource [] data
            initCRC).req.Body ∧
        (conn.doRequest canon md5b64 tmp date method uri resource headers data
            initCRC).fd =
          (conn.doRequest canon md5b64 tmp date method uri resource [] data initCRC).fd) ∧
      (Conn.doRequest CanonicalMIMEHeaderKey md5b64 (some "osstmp") date
          { config := { IsEnableMD5 := true, MD5Threshold := 16 } } "PUT" {} "/b/o"
          [("Content-MD5", "caller")] (some (Reader.stringsReader "abc")) 0).req.Body =
        some (Reader.nopCloser (Reader.bytesReader "abc")) ∧
      (Conn.handleBody CanonicalMIMEHeaderKey md5b64 (some "osstmp")
          { config := { IsEnableMD5 := true, MD5Threshold := 16 } } {}
          (some (Reader.stringsReader "abc")) 0).1.Header.Get CanonicalMIMEHeaderKey
          HTTPHeaderContentMD5 = md5b64 "abc" ∧
      (Conn.doRequest CanonicalMIMEHeaderKey md5b64 (some "osstmp") date
          { config := { IsEnableMD5 := true, MD5Threshold := 16 } } "PUT" {} "/b/o"
          [("Content-MD5", "caller")] (some (Reader.other "abc" false)) 0).fd =
        some (Reader.osFile "osstmp" 3 "abc") := by
  refine ⟨fun _ _ _ _ _ _ _ _ _ => ⟨rfl, rfl⟩, ?_, ?_, ?_⟩
  · rfl
  · rfl
  · rfl

end oss
